import Mathlib

/-!
Verification of the alcyone job-submission module (src/alcyone.py).

Python strings are modelled as lists of characters; Python dicts built with
dict of zip are modelled as the underlying association lists with
last-binding-wins lookup; code paths that raise exceptions are modelled with
Option or an explicit outcome type.
-/

namespace Alcyone

/-- Python str values, modelled as lists of characters. -/
abbrev Str := List Char

/-- Turn a Lean string literal into the character-list model. -/
def toL (s : String) : Str := s.data

/-- Whitespace test used by the Python str.strip method. -/
def isWS (c : Char) : Bool := c.isWhitespace

/-- Python s.strip: remove leading and trailing whitespace. -/
def strip (s : Str) : Str :=
  ((s.dropWhile isWS).reverse.dropWhile isWS).reverse

/-- Python slicing line[start : start + len]. -/
def pySlice (s : Str) (start len : Nat) : Str := (s.drop start).take len

/-- Python s.split(sep) for a one-character separator: every occurrence
splits, empty fields are kept, and the empty string splits to one empty
field. -/
def pySplit (sep : Char) : Str → List Str
  | [] => [[]]
  | c :: rest =>
      if c = sep then [] :: pySplit sep rest
      else
        match pySplit sep rest with
        | [] => [[c]]
        | r :: rs => (c :: r) :: rs

/-- Loop body of parse_fw_row from src/alcyone.py, carrying the running
offset total: each width takes the slice line[total : total + width],
strips it, and advances total by width. -/
def parse_fw_row_go (line : Str) : List Nat → Nat → List Str
  | [], _ => []
  | w :: ws, total => strip (pySlice line total w) :: parse_fw_row_go line ws (total + w)

/-- parse_fw_row from src/alcyone.py: slice the line at the cumulative
widths and strip each entry. -/
def parse_fw_row (line : Str) (widths : List Nat) : List Str :=
  parse_fw_row_go line widths 0

/-- A StatusRow: the Python code builds dict of zip(columns, entries); we
keep the zipped association list, with last-binding-wins lookup below. -/
abbrev Row := List (Str × Str)

/-- Python dict lookup for a dict built from an association list where a
later binding of a key overrides an earlier one; none models KeyError. -/
def dictGet (row : Row) (key : Str) : Option Str :=
  Option.map Prod.snd ((row.filter (fun p => p.1 == key)).getLast?)

/-- parse_fw from src/alcyone.py: split into lines, read the column widths
from the second line (token length plus one for the separating space),
parse the header from the first line, and zip every further line against
the header. Returns none where the Python code raises IndexError, namely
when the response has fewer than two lines. -/
def parse_fw (string : Str) : Option (List Row) :=
  match pySplit '\n' string with
  | l0 :: l1 :: rest =>
      let widths := (pySplit ' ' l1).map (fun i => i.length + 1)
      let columns := parse_fw_row l0 widths
      some (rest.map (fun row => columns.zip (parse_fw_row row widths)))
  | _ => none

/-- Literal text of the scheduler acknowledgment before the job id. -/
def ackText : Str := toL "Submitted batch job "

/-- Python re.match of the raw pattern Submitted batch job followed by a
captured group of one or more digits, applied to stdout: the match is
anchored at the start, needs at least one digit after the literal text,
and the greedy group captures the maximal digit run. -/
def submit_match (stdout : Str) : Option Str :=
  if stdout.take ackText.length = ackText then
    let ds := (stdout.drop ackText.length).takeWhile Char.isDigit
    if ds = [] then none else some ds
  else none

/-- Acknowledgment handling of Job.submit_job from src/alcyone.py. First
component: the job scheduler-identifier field after the call; second
component: the raised error, carrying the raw stdout, when the pattern did
not match. A raised error skips the assignment, so the identifier field
keeps its previous value. -/
def submit_job (job_id : Option Str) (stdout : Str) : Option Str × Option Str :=
  match submit_match stdout with
  | some jid => (some jid, none)
  | none => (job_id, some stdout)

/-- Output artifact name derived in Job init: alcyone_out_<id>.dat. -/
def out_filename (id : Str) : Str := toL "alcyone_out_" ++ id ++ toL ".dat"

/-- Remote input script name derived in Job init: alcyone_in_<id>.py. -/
def remote_name (id : Str) : Str := toL "alcyone_in_" ++ id ++ toL ".py"

/-- Submission script name derived in Job.submit_job: the remote input
script name with .slurm appended. -/
def slurm_remote_input_name (id : Str) : Str := remote_name id ++ toL ".slurm"

/-- Column name used by the polling filter. -/
def jobIDKey : Str := toL "JobID"

/-- The list comprehension in Job.poll_job keeping rows whose JobID column
equals the job id as a string; none models the KeyError raised when a row
lacks the JobID column. -/
def filterJob (job_id : Str) : List Row → Option (List Row)
  | [] => some []
  | r :: rs =>
      match dictGet r jobIDKey with
      | none => none
      | some v =>
          match filterJob job_id rs with
          | none => none
          | some rest => some (if v = job_id then r :: rest else rest)

/-- Outcome of one call of Job.poll_job. found r is a normal return of the
row r; emptyIndexFault is the IndexError raised by taking result[-1] of an
empty list after the loop exhausts its attempts without a match;
parseFault and keyFault are the exceptions propagating out of parse_fw and
of the filtering comprehension. -/
inductive PollOutcome where
  | found : Row → PollOutcome
  | emptyIndexFault : PollOutcome
  | parseFault : PollOutcome
  | keyFault : PollOutcome
deriving DecidableEq

/-- Polling loop of Job.poll_job from src/alcyone.py. k is the index of
the current attempt, n the number of attempts left out of
timeout_sec / poll_delay, and responses gives the accounting-query stdout
of each attempt. On a nonempty filtered list the loop breaks and the code
returns result[-1], the last match; when the loop ends without a break the
final filtered list is empty and result[-1] raises: emptyIndexFault. -/
def poll_loop (job_id : Str) (responses : Nat → Str) : Nat → Nat → PollOutcome
  | _, 0 => PollOutcome.emptyIndexFault
  | k, n + 1 =>
      match parse_fw (responses k) with
      | none => PollOutcome.parseFault
      | some rows =>
          match filterJob job_id rows with
          | none => PollOutcome.keyFault
          | some ms =>
              match ms.getLast? with
              | some r => PollOutcome.found r
              | none => poll_loop job_id responses (k + 1) n

/-- Job.poll_job: run the polling loop for timeout_sec / poll_delay
attempts (Python floor division in range). -/
def poll_job (job_id : Str) (timeout_sec poll_delay : Nat) (responses : Nat → Str) : PollOutcome :=
  poll_loop job_id responses 0 (timeout_sec / poll_delay)

/-- Number of accounting queries issued by the polling loop: one per
iteration entered, including an iteration that raises. -/
def poll_count (job_id : Str) (responses : Nat → Str) : Nat → Nat → Nat
  | _, 0 => 0
  | k, n + 1 =>
      match parse_fw (responses k) with
      | none => 1
      | some rows =>
          match filterJob job_id rows with
          | none => 1
          | some ms =>
              match ms.getLast? with
              | some _ => 1
              | none => 1 + poll_count job_id responses (k + 1) n

/-- Number of accounting queries issued by one call of Job.poll_job. -/
def poll_attempts (job_id : Str) (timeout_sec poll_delay : Nat) (responses : Nat → Str) : Nat :=
  poll_count job_id responses 0 (timeout_sec / poll_delay)

/-- Observable effects of the retrieval phase of Job.run. -/
inductive Eff where
  | sleep : Nat → Eff
  | download : Str → Str → Eff
  | readFile : Str → Eff
deriving DecidableEq

/-- Local file name used inside the scoped temporary directory. -/
def local_out_name (id : Str) : Str := toL "alcyone-" ++ id ++ toL "-out.dat"

/-- Remote path Job.run downloads from: the scheduler log
/home/<user>/slurm-<job_id>.out. -/
def slurm_log_path (user job_id : Str) : Str :=
  toL "/home/" ++ user ++ toL "/slurm-" ++ job_id ++ toL ".out"

/-- Remote path of the output artifact the uploaded runner writes:
<remote_dir>/<out_filename>. -/
def remote_out_path (remote_dir id : Str) : Str :=
  remote_dir ++ toL "/" ++ out_filename id

/-- Retrieval phase of Job.run after polling succeeds, from
src/alcyone.py: inside a scoped temporary directory, sleep write_delay,
copy the remote scheduler log into the temporary directory, open that
local file and return its whole contents. fs maps each remote path to its
contents; the returned pair is the trace of effects and the contents
read. -/
def retrieve (id user job_id : Str) (write_delay : Nat) (tempdir : Str)
    (fs : Str → Option Str) : List Eff × Option Str :=
  let local_path := tempdir ++ toL "/" ++ local_out_name id
  ([Eff.sleep write_delay,
    Eff.download (slurm_log_path user job_id) local_path,
    Eff.readFile local_path],
   fs (slurm_log_path user job_id))

/-- Pad a field with spaces on the right to a column width; part of the
fixture construction for the round-trip property. -/
def pad (s : Str) (w : Nat) : Str := s ++ List.replicate (w - s.length) ' '

/-- Concatenate one field per column, each padded to its width. -/
def joinPadded : List Str → List Nat → Str
  | [], _ => []
  | _ :: _, [] => []
  | s :: ss, w :: ws => pad s w ++ joinPadded ss ws

/-- Join lines with newline characters, with no trailing newline. -/
def joinLines : List Str → Str
  | [] => []
  | [l] => l
  | l :: ls => l ++ '\n' :: joinLines ls

/-- Column widths a width-marker line defines: the length of each
space-separated token plus one for the separating space. -/
def markerWidths (marker : Str) : List Nat :=
  (pySplit ' ' marker).map (fun i => i.length + 1)

/-- Accounting response fixture whose single data row has JobID 88. -/
def noMatchResp : Str := toL "JobID St \n----- --\n88    R  "

/-- Parsed rows of the fixture with JobID 88. -/
def noMatchRows : List Row := [[(toL "JobID", toL "88"), (toL "St", toL "R")]]

/-- Accounting response fixture whose single data row has JobID 77. -/
def matchResp : Str := toL "JobID St \n----- --\n77    R  "

/-- Parsed rows of the fixture with JobID 77. -/
def matchRows : List Row := [[(toL "JobID", toL "77"), (toL "St", toL "R")]]

/-- The row of the fixture with JobID 77. -/
def matchedRow : Row := [(toL "JobID", toL "77"), (toL "St", toL "R")]

/-- Remote filesystem fixture holding both the output artifact of job u1
and the scheduler log of scheduler job 77, with distinct contents. -/
def fsFixture : Str → Option Str := fun p =>
  if p = remote_out_path (toL "/tmp") (toL "u1") then some (toL "ARTIFACT")
  else if p = slurm_log_path (toL "alger") (toL "77") then some (toL "LOG")
  else none

/-- Two status rows sharing the scheduler identifier 4821 as their JobID
value, the second with a sub-step suffix appended. -/
def substepRows : List Row :=
  [[(jobIDKey, toL "4821")], [(jobIDKey, toL "4821" ++ toL ".batch")]]

/-- Status source whose first attempt has no matching row and whose later
attempts match scheduler identifier 77. -/
def stepResp : Nat → Str := fun k => if k = 0 then noMatchResp else matchResp

theorem poll_loop_no_match (jid : Str) (resp : Nat → Str)
    (h : ∀ k, ∃ rows, parse_fw (resp k) = some rows ∧ filterJob jid rows = some []) :
    ∀ n k, poll_loop jid resp k n = PollOutcome.emptyIndexFault := by
  intro n
  induction n with
  | zero => intro k; rfl
  | succ m ih =>
      intro k
      obtain ⟨rows, hp, hf⟩ := h k
      simp only [poll_loop, hp, hf, List.getLast?]
      exact ih (k + 1)

/-- C1: over every polling run in which no query attempt yields a row
whose JobID column equals the scheduler identifier, the code does not
raise a PollTimeoutError: it falls through to evaluating result[-1] on an
empty list, an unhandled IndexError. This contradicts the claim, which the
spec states as the intended design; the code is the slip. -/
theorem poll_never_match_empty_index (jid : Str) (timeout_sec poll_delay : Nat)
    (resp : Nat → Str) (_hd : 0 < timeout_sec / poll_delay)
    (h : ∀ k, ∃ rows, parse_fw (resp k) = some rows ∧ filterJob jid rows = some []) :
    poll_job jid timeout_sec poll_delay resp = PollOutcome.emptyIndexFault :=
  poll_loop_no_match jid resp h (timeout_sec / poll_delay) 0

/-- Witness for C1: the concrete never-matching source from the claim
budget timeout 30, poll interval 5. -/
theorem poll_never_match_empty_index_witness :
    0 < 30 / 5 ∧
      poll_job (toL "77") 30 5 (fun _ => noMatchResp) = PollOutcome.emptyIndexFault :=
  ⟨by decide, poll_never_match_empty_index (toL "77") 30 5 (fun _ => noMatchResp)
    (by decide) (fun _ => ⟨noMatchRows, (by decide : parse_fw noMatchResp = some noMatchRows),
      (by decide : filterJob (toL "77") noMatchRows = some [])⟩)⟩

/-- C4 counterexample: a row whose JobID value is the target identifier
4821 with the sub-step suffix .batch appended is rejected by the filter,
though the claim says such rows are accepted. -/
theorem filter_substep_counterexample :
    filterJob (toL "4821") [[(jobIDKey, toL "4821" ++ toL ".batch")]] = some [] := by decide

/-- C4 amended: when every row carries a JobID column, the filter keeps
exactly the rows whose JobID value equals the target identifier as a
string; a row with a sub-step suffix appended does not match. -/
theorem filter_exact_equality (job_id : Str) (rows : List Row)
    (h : ∀ r ∈ rows, (dictGet r jobIDKey).isSome = true) :
    filterJob job_id rows =
      some (rows.filter (fun r => decide (dictGet r jobIDKey = some job_id))) := by
  induction rows with
  | nil => rfl
  | cons r rs ih =>
      obtain ⟨v, hv⟩ := Option.isSome_iff_exists.mp (h r (by simp))
      have hrs := ih (fun x hx => h x (by simp [hx]))
      by_cases hveq : v = job_id
      · simp [filterJob, hv, hrs, List.filter, hveq]
      · simp [filterJob, hv, hrs, List.filter, hveq]

/-- Witness for C4 amended: of two rows sharing the identifier 4821, only
the exact-equality row survives the filter. -/
theorem filter_exact_equality_witness :
    filterJob (toL "4821") substepRows = some [[(jobIDKey, toL "4821")]] :=
  (filter_exact_equality (toL "4821") substepRows (by decide)).trans (by decide)

/-- C6: a data line of length 2 against a header-derived total width of 4
does not produce a MalformedTableError (no such failure exists in the
code); parse_fw silently truncates and yields a row with a shortened and
an empty field. The spec states the failure as the intended design; the
code is the slip. -/
theorem parse_fw_truncates_short_line :
    (toL "xy").length ≠ (markerWidths (toL "- -")).sum ∧
    parse_fw (toL "A B\n- -\nxy") = some [[(toL "A", toL "xy"), (toL "B", [])]] := by decide

/-- C7: the acknowledgment Submitted batch job 4821 stores the scheduler
identifier 4821; Permission denied does not match the pattern; and any
stdout that does not match leaves the identifier field unchanged and
raises an error carrying the raw output. -/
theorem submit_ack_parsing :
    submit_job none (toL "Submitted batch job 4821") = (some (toL "4821"), none) ∧
    submit_match (toL "Permission denied") = none ∧
    (∀ job_id stdout, submit_match stdout = none →
      submit_job job_id stdout = (job_id, some stdout)) := by
  refine ⟨by decide, by decide, ?_⟩
  intro j s h
  simp [submit_job, h]

/-- Witness for C7: the non-matching output Permission denied raises,
carrying the raw output, and the identifier field stays unset. -/
theorem submit_ack_parsing_witness :
    submit_match (toL "Permission denied") = none ∧
    submit_job none (toL "Permission denied") = (none, some (toL "Permission denied")) :=
  ⟨by decide, submit_ack_parsing.2.2 none (toL "Permission denied") (by decide)⟩

/-- C8 counterexample: the submission script name the code derives for
identifier 1234 is not the input-script name with suffix .submit; the
code appends .slurm. -/
theorem submission_name_counterexample :
    slurm_remote_input_name (toL "1234") ≠ remote_name (toL "1234") ++ toL ".submit" := by
  decide

theorem out_filename_getLast (u : Str) : (out_filename u).getLast? = some 't' := by
  unfold out_filename
  rw [List.getLast?_append_of_ne_nil _ (by decide)]
  decide

theorem remote_name_getLast (u : Str) : (remote_name u).getLast? = some 'y' := by
  unfold remote_name
  rw [List.getLast?_append_of_ne_nil _ (by decide)]
  decide

theorem slurm_name_getLast (u : Str) : (slurm_remote_input_name u).getLast? = some 'm' := by
  unfold slurm_remote_input_name
  rw [List.getLast?_append_of_ne_nil _ (by decide)]
  decide

theorem out_filename_inj {u v : Str} (h : out_filename u = out_filename v) : u = v :=
  List.append_cancel_left (List.append_cancel_right h)

theorem remote_name_inj {u v : Str} (h : remote_name u = remote_name v) : u = v :=
  List.append_cancel_left (List.append_cancel_right h)

/-- C8 amended: the derived names are deterministic functions of the Job
identifier, the submission script is the input-script name with .slurm
appended, names of distinct kinds never coincide, and each kind is
injective in the identifier, so Jobs with distinct identifiers share no
names. -/
theorem filenames_deterministic_distinct (u v : Str) :
    slurm_remote_input_name u = remote_name u ++ toL ".slurm" ∧
    (u ≠ v → out_filename u ≠ out_filename v ∧ remote_name u ≠ remote_name v ∧
      slurm_remote_input_name u ≠ slurm_remote_input_name v) ∧
    out_filename u ≠ remote_name v ∧
    out_filename u ≠ slurm_remote_input_name v ∧
    remote_name u ≠ slurm_remote_input_name v := by
  refine ⟨rfl, fun huv => ⟨?_, ?_, ?_⟩, ?_, ?_, ?_⟩
  · exact fun he => huv (out_filename_inj he)
  · exact fun he => huv (remote_name_inj he)
  · exact fun he => huv (remote_name_inj (List.append_cancel_right he))
  · intro he
    have h2 := congrArg List.getLast? he
    rw [out_filename_getLast, remote_name_getLast] at h2
    exact (by decide : some 't' ≠ some 'y') h2
  · intro he
    have h2 := congrArg List.getLast? he
    rw [out_filename_getLast, slurm_name_getLast] at h2
    exact (by decide : some 't' ≠ some 'm') h2
  · intro he
    have h2 := congrArg List.getLast? he
    rw [remote_name_getLast, slurm_name_getLast] at h2
    exact (by decide : some 'y' ≠ some 'm') h2

/-- Witness for C8 amended: distinct identifiers a and b give distinct
names of every kind. -/
theorem filenames_deterministic_distinct_witness :
    toL "a" ≠ toL "b" ∧ out_filename (toL "a") ≠ out_filename (toL "b") ∧
    out_filename (toL "a") ≠ slurm_remote_input_name (toL "b") :=
  ⟨by decide, ((filenames_deterministic_distinct (toL "a") (toL "b")).2.1 (by decide)).1,
    (filenames_deterministic_distinct (toL "a") (toL "b")).2.2.2.1⟩

/-- C9 counterexample: at a remote filesystem holding both the output
artifact of the Job and the scheduler log, with distinct contents, the
retrieval phase downloads the scheduler log path, not the output-artifact
path, and returns the log contents, not the artifact contents. -/
theorem retrieve_artifact_counterexample :
    (retrieve (toL "u1") (toL "alger") (toL "77") 10 (toL "/t") fsFixture).2 = some (toL "LOG") ∧
    some (toL "LOG") ≠ some (toL "ARTIFACT") ∧
    fsFixture (remote_out_path (toL "/tmp") (toL "u1")) = some (toL "ARTIFACT") ∧
    slurm_log_path (toL "alger") (toL "77") ≠ remote_out_path (toL "/tmp") (toL "u1") ∧
    (retrieve (toL "u1") (toL "alger") (toL "77") 10 (toL "/t") fsFixture).1.get? 1 =
      some (Eff.download (slurm_log_path (toL "alger") (toL "77"))
        (toL "/t" ++ toL "/" ++ local_out_name (toL "u1"))) := by decide

/-- C9 amended: after polling succeeds the code first sleeps the settle
delay, then downloads the remote scheduler log
/home/<user>/slurm-<job_id>.out - not the output artifact - into the
scoped temporary directory, and returns the full contents of that file. -/
theorem retrieve_log_contract (id user jid : Str) (d : Nat) (td : Str)
    (fs : Str → Option Str) :
    retrieve id user jid d td fs =
      ([Eff.sleep d,
        Eff.download (toL "/home/" ++ user ++ toL "/slurm-" ++ jid ++ toL ".out")
          (td ++ toL "/" ++ (toL "alcyone-" ++ id ++ toL "-out.dat")),
        Eff.readFile (td ++ toL "/" ++ (toL "alcyone-" ++ id ++ toL "-out.dat"))],
       fs (toL "/home/" ++ user ++ toL "/slurm-" ++ jid ++ toL ".out")) := rfl

theorem poll_count_le (jid : Str) (resp : Nat → Str) :
    ∀ n k, poll_count jid resp k n ≤ n := by
  intro n
  induction n with
  | zero => intro k; exact Nat.le_refl 0
  | succ m ih =>
      intro k
      simp only [poll_count]
      split
      · omega
      · split
        · omega
        · split
          · omega
          · have := ih (k + 1)
            omega

/-- C2: the polling loop issues at most the ceiling of timeout over poll
interval many accounting queries, and with timeout 30, interval 5 and a
source that never yields a matching row it issues exactly 6. -/
theorem poll_attempt_bound (jid : Str) (resp : Nat → Str) :
    (∀ timeout_sec poll_delay, 0 < poll_delay →
      poll_attempts jid timeout_sec poll_delay resp ≤
        (timeout_sec + poll_delay - 1) / poll_delay) ∧
    ((∀ k, ∃ rows, parse_fw (resp k) = some rows ∧ filterJob jid rows = some []) →
      poll_attempts jid 30 5 resp = 6) := by
  constructor
  · intro t d hd
    exact Nat.le_trans (poll_count_le jid resp (t / d) 0) (Nat.div_le_div_right (by omega))
  · intro h
    have hall : ∀ n k, poll_count jid resp k n = n := by
      intro n
      induction n with
      | zero => intro k; rfl
      | succ m ih =>
          intro k
          obtain ⟨rows, hp, hf⟩ := h k
          simp only [poll_count, hp, hf, List.getLast?]
          rw [ih (k + 1)]
          omega
    show poll_count jid resp 0 (30 / 5) = 6
    rw [hall (30 / 5) 0]

/-- Witness for C2: a concrete never-matching source hits the ceiling
bound and makes exactly 6 queries. -/
theorem poll_attempt_bound_witness :
    (0 : Nat) < 5 ∧
    poll_attempts (toL "77") 30 5 (fun _ => noMatchResp) ≤ (30 + 5 - 1) / 5 ∧
    poll_attempts (toL "77") 30 5 (fun _ => noMatchResp) = 6 :=
  ⟨by decide,
   (poll_attempt_bound (toL "77") (fun _ => noMatchResp)).1 30 5 (by decide),
   (poll_attempt_bound (toL "77") (fun _ => noMatchResp)).2
     (fun _ => ⟨noMatchRows, (by decide : parse_fw noMatchResp = some noMatchRows),
       (by decide : filterJob (toL "77") noMatchRows = some [])⟩)⟩

theorem poll_loop_found (jid : Str) (resp : Nat → Str) :
    ∀ m n k rows ms r,
      (∀ j, j < m → ∃ rs, parse_fw (resp (k + j)) = some rs ∧ filterJob jid rs = some []) →
      m < n →
      parse_fw (resp (k + m)) = some rows →
      filterJob jid rows = some ms →
      ms.getLast? = some r →
      poll_loop jid resp k n = PollOutcome.found r ∧ poll_count jid resp k n = m + 1 := by
  intro m
  induction m with
  | zero =>
      intro n k rows ms r hearly hmn hp hf hr
      obtain ⟨n1, rfl⟩ : ∃ n1, n = n1 + 1 := ⟨n - 1, by omega⟩
      rw [Nat.add_zero] at hp
      constructor
      · simp only [poll_loop, hp, hf, hr]
      · simp only [poll_count, hp, hf, hr]
  | succ m ih =>
      intro n k rows ms r hearly hmn hp hf hr
      obtain ⟨n1, rfl⟩ : ∃ n1, n = n1 + 1 := ⟨n - 1, by omega⟩
      obtain ⟨rs0, hp0, hf0⟩ := hearly 0 (Nat.succ_pos m)
      rw [Nat.add_zero] at hp0
      have hearly1 : ∀ j, j < m →
          ∃ rs, parse_fw (resp (k + 1 + j)) = some rs ∧ filterJob jid rs = some [] := by
        intro j hj
        have hidx := hearly (j + 1) (by omega)
        rwa [show k + (j + 1) = k + 1 + j by omega] at hidx
      have hp1 : parse_fw (resp (k + 1 + m)) = some rows := by
        rwa [show k + (m + 1) = k + 1 + m by omega] at hp
      have hmain := ih n1 (k + 1) rows ms r hearly1 (by omega) hp1 hf hr
      constructor
      · simp only [poll_loop, hp0, hf0, List.getLast?]
        exact hmain.1
      · simp only [poll_count, hp0, hf0, List.getLast?]
        rw [hmain.2]
        omega

/-- C3: when the first matching attempt is attempt m (earlier attempts
parse but yield no matching row) and it is inside the attempt budget, the
poller stops at that attempt - making exactly m plus 1 queries - and
returns the last matching row of that response. -/
theorem poll_found_last_match (jid : Str) (timeout_sec poll_delay m : Nat)
    (resp : Nat → Str) (rows ms : List Row) (r : Row)
    (hearly : ∀ j, j < m → ∃ rs, parse_fw (resp j) = some rs ∧ filterJob jid rs = some [])
    (hm : m < timeout_sec / poll_delay)
    (hp : parse_fw (resp m) = some rows)
    (hf : filterJob jid rows = some ms)
    (hr : ms.getLast? = some r) :
    poll_job jid timeout_sec poll_delay resp = PollOutcome.found r ∧
      poll_attempts jid timeout_sec poll_delay resp = m + 1 := by
  have h0 : ∀ j, j < m →
      ∃ rs, parse_fw (resp (0 + j)) = some rs ∧ filterJob jid rs = some [] := by
    intro j hj
    simpa using hearly j hj
  have hp0 : parse_fw (resp (0 + m)) = some rows := by simpa using hp
  exact poll_loop_found jid resp m (timeout_sec / poll_delay) 0 rows ms r h0 hm hp0 hf hr

/-- Witness for C3: with one non-matching attempt followed by a matching
one, polling returns the matching row after exactly 2 queries. -/
theorem poll_found_last_match_witness :
    poll_job (toL "77") 30 5 stepResp = PollOutcome.found matchedRow ∧
    poll_attempts (toL "77") 30 5 stepResp = 2 := by
  refine poll_found_last_match (toL "77") 30 5 1 stepResp matchRows matchRows matchedRow
    ?_ (by decide) (by decide) (by decide) (by decide)
  intro j hj
  have hj0 : j = 0 := by omega
  subst hj0
  exact ⟨noMatchRows, (by decide : parse_fw (stepResp 0) = some noMatchRows),
    (by decide : filterJob (toL "77") noMatchRows = some [])⟩

theorem parse_fw_row_go_length (line : Str) :
    ∀ ws total, (parse_fw_row_go line ws total).length = ws.length := by
  intro ws
  induction ws with
  | nil => intro total; rfl
  | cons w ws ih => intro total; simp [parse_fw_row_go, ih]

theorem parse_fw_row_go_past_end (line : Str) :
    ∀ ws total, line.length ≤ total →
      parse_fw_row_go line ws total = ws.map (fun _ => ([] : Str)) := by
  intro ws
  induction ws with
  | nil => intro total h; rfl
  | cons w ws ih =>
      intro total h
      have hdrop : line.drop total = [] := List.drop_eq_nil_of_le h
      simp [parse_fw_row_go, pySlice, hdrop, strip, ih (total + w) (by omega)]

theorem strip_length_le (s : Str) : (strip s).length ≤ s.length := by
  unfold strip
  rw [List.length_reverse]
  refine Nat.le_trans (List.dropWhile_sublist isWS).length_le ?_
  rw [List.length_reverse]
  exact (List.dropWhile_sublist isWS).length_le

theorem parse_fw_row_go_entry_le (line : Str) :
    ∀ ws total, ∀ p ∈ (parse_fw_row_go line ws total).zip ws, p.1.length ≤ p.2 := by
  intro ws
  induction ws with
  | nil => intro total p hp; cases hp
  | cons w ws ih =>
      intro total p hp
      simp only [parse_fw_row_go, List.zip_cons_cons, List.mem_cons] at hp
      rcases hp with rfl | hp
      · exact Nat.le_trans (strip_length_le _) (List.length_take_le _ _)
      · exact ih (total + w) p hp

/-- C10: parse_fw_row is total in the length of the data line - it always
returns one stripped entry per width; a column that starts past the end of
the line yields the empty string; every entry is at most its column width
long, so over-long lines are silently cut; and parse_fw succeeds on every
response with at least two lines, whatever the data line lengths. -/
theorem parse_fw_row_total :
    (∀ line widths, (parse_fw_row line widths).length = widths.length) ∧
    (∀ line widths total, line.length ≤ total →
      parse_fw_row_go line widths total = widths.map (fun _ => ([] : Str))) ∧
    (∀ line widths, ∀ p ∈ (parse_fw_row line widths).zip widths, p.1.length ≤ p.2) ∧
    (∀ s, 2 ≤ (pySplit '\n' s).length → (parse_fw s).isSome = true) := by
  refine ⟨fun line widths => parse_fw_row_go_length line widths 0,
    fun line widths total h => parse_fw_row_go_past_end line widths total h,
    fun line widths => parse_fw_row_go_entry_le line widths 0, ?_⟩
  intro s hs
  unfold parse_fw
  cases hsp : pySplit '\n' s with
  | nil => rw [hsp] at hs; simp at hs
  | cons l0 tl =>
      cases tl with
      | nil => rw [hsp] at hs; simp at hs
      | cons l1 rest => simp

/-- Witness for C10: a two-character line against widths 2 and 3 gives two
entries, columns past the end are empty, and a two-line response parses. -/
theorem parse_fw_row_total_witness :
    (parse_fw_row (toL "xy") [2, 3]).length = 2 ∧
    (toL "xy").length ≤ 5 ∧
    parse_fw_row_go (toL "xy") [2, 3] 5 = [[], []] ∧
    2 ≤ (pySplit '\n' (toL "a\nb")).length ∧
    (parse_fw (toL "a\nb")).isSome = true :=
  ⟨parse_fw_row_total.1 (toL "xy") [2, 3],
   by decide,
   parse_fw_row_total.2.1 (toL "xy") [2, 3] 5 (by decide),
   by decide,
   parse_fw_row_total.2.2.2 (toL "a\nb") (by decide)⟩

theorem pySplit_no_sep (sep : Char) : ∀ l : Str, sep ∉ l → pySplit sep l = [l] := by
  intro l
  induction l with
  | nil => intro h; rfl
  | cons c rest ih =>
      intro h
      have hc : ¬(c = sep) := by
        intro he
        exact h (by rw [he]; exact List.mem_cons_self sep rest)
      simp only [pySplit, if_neg hc, ih (fun hm => h (List.mem_cons_of_mem c hm))]

theorem pySplit_append_sep (sep : Char) : ∀ l rest : Str, sep ∉ l →
    pySplit sep (l ++ sep :: rest) = l :: pySplit sep rest := by
  intro l
  induction l with
  | nil =>
      intro rest _
      simp [pySplit]
  | cons c l ih =>
      intro rest h
      have hc : ¬(c = sep) := by
        intro he
        exact h (by rw [he]; exact List.mem_cons_self sep l)
      have hih := ih rest (fun hm => h (List.mem_cons_of_mem c hm))
      simp only [List.cons_append, pySplit, if_neg hc, List.append_eq, hih]

theorem pySplit_joinLines : ∀ lines : List Str, lines ≠ [] →
    (∀ l ∈ lines, '\n' ∉ l) → pySplit '\n' (joinLines lines) = lines := by
  intro lines
  induction lines with
  | nil => intro h _; exact absurd rfl h
  | cons l ls ih =>
      intro _ hnl
      cases ls with
      | nil => exact pySplit_no_sep '\n' l (hnl l (List.mem_cons_self l []))
      | cons l2 ls2 =>
          have hjoin : joinLines (l :: l2 :: ls2) = l ++ '\n' :: joinLines (l2 :: ls2) := rfl
          rw [hjoin, pySplit_append_sep '\n' l _ (hnl l (by simp)),
            ih (by simp) (fun x hx => hnl x (by simp [hx]))]

theorem pad_length {s : Str} {w : Nat} (h : s.length ≤ w) : (pad s w).length = w := by
  simp only [pad, List.length_append, List.length_replicate]
  omega

theorem dropWhile_ws_replicate (n : Nat) :
    List.dropWhile isWS (List.replicate n ' ') = [] := by
  have h1 : isWS ' ' = true := by decide
  induction n with
  | zero => rfl
  | succ m ih => simp [List.replicate_succ, List.dropWhile_cons, h1, ih]

theorem strip_append_replicate (s : Str) (n : Nat) :
    strip (s ++ List.replicate n ' ') = strip s := by
  unfold strip
  rw [List.dropWhile_append]
  by_cases h : (s.dropWhile isWS).isEmpty
  · rw [if_pos h, dropWhile_ws_replicate]
    have hs : s.dropWhile isWS = [] := by
      cases hq : s.dropWhile isWS with
      | nil => rfl
      | cons a l => rw [hq] at h; simp [List.isEmpty] at h
    rw [hs]
  · rw [if_neg h, List.reverse_append, List.reverse_replicate,
      List.dropWhile_append_of_pos ?_]
    intro a ha
    rw [List.eq_of_mem_replicate ha]
    decide

theorem strip_pad (s : Str) (w : Nat) : strip (pad s w) = strip s :=
  strip_append_replicate s (w - s.length)

theorem parse_fw_row_go_shift :
    ∀ (ws : List Nat) (line : Str) (total : Nat),
      parse_fw_row_go line ws total = parse_fw_row_go (line.drop total) ws 0 := by
  intro ws
  induction ws with
  | nil => intro line total; rfl
  | cons w ws ih =>
      intro line total
      simp only [parse_fw_row_go, Nat.zero_add]
      refine congrArg₂ List.cons ?_ ?_
      · simp [pySlice]
      · rw [ih line (total + w), ih (line.drop total) w, List.drop_drop]

theorem parse_fw_row_joinPadded :
    ∀ (ss : List Str) (ws : List Nat), ss.length = ws.length →
      (∀ p ∈ ss.zip ws, p.1.length ≤ p.2) →
      parse_fw_row (joinPadded ss ws) ws = ss.map strip := by
  intro ss
  induction ss with
  | nil =>
      intro ws hlen _
      have hw : ws = [] := by
        cases ws with
        | nil => rfl
        | cons w ws => simp at hlen
      subst hw
      rfl
  | cons s ss ih =>
      intro ws hlen hfit
      cases ws with
      | nil => simp at hlen
      | cons w ws =>
          have hsw : s.length ≤ w := hfit (s, w) (by simp)
          have hlen2 : (pad s w).length = w := pad_length hsw
          show parse_fw_row_go (pad s w ++ joinPadded ss ws) (w :: ws) 0 =
            strip s :: ss.map strip
          simp only [parse_fw_row_go, Nat.zero_add]
          refine congrArg₂ List.cons ?_ ?_
          · show strip ((pad s w ++ joinPadded ss ws).take w) = strip s
            rw [List.take_left' hlen2]
            exact strip_pad s w
          · rw [parse_fw_row_go_shift ws _ w, List.drop_left' hlen2]
            exact ih ws (by simpa using hlen) (fun p hp => hfit p (by simp [hp]))

theorem joinPadded_no_newline :
    ∀ (ss : List Str) (ws : List Nat), (∀ s ∈ ss, '\n' ∉ s) →
      '\n' ∉ joinPadded ss ws := by
  intro ss
  induction ss with
  | nil => intro ws _; simp [joinPadded]
  | cons s ss ih =>
      intro ws h
      cases ws with
      | nil => simp [joinPadded]
      | cons w ws =>
          show '\n' ∉ pad s w ++ joinPadded ss ws
          intro hmem
          rcases List.mem_append.mp hmem with h1 | h2
          · rcases List.mem_append.mp h1 with h3 | h4
            · exact h s (List.mem_cons_self s ss) h3
            · have := List.eq_of_mem_replicate h4
              simp at this
          · exact ih ws (fun x hx => h x (List.mem_cons_of_mem s hx)) h2

/-- C5: fixed-width parsing round-trips. For any width-marker line, any
header fields and any N rows of data fields that each fit the widths the
marker implies, building the table by padding every field to its column
width and parsing it back yields exactly N rows pairing each stripped
header name with the whitespace-trimmed original field content. -/
theorem parse_fw_roundTrip (marker : Str) (hs : List Str) (fss : List (List Str))
    (hm : '\n' ∉ marker)
    (hlen : hs.length = (markerWidths marker).length)
    (hfit : ∀ p ∈ hs.zip (markerWidths marker), p.1.length ≤ p.2)
    (hnl : ∀ h ∈ hs, '\n' ∉ h)
    (hrows : ∀ fs ∈ fss, fs.length = (markerWidths marker).length ∧
      (∀ p ∈ fs.zip (markerWidths marker), p.1.length ≤ p.2) ∧ ∀ f ∈ fs, '\n' ∉ f) :
    parse_fw (joinLines (joinPadded hs (markerWidths marker) :: marker ::
        fss.map (fun fs => joinPadded fs (markerWidths marker)))) =
      some (fss.map (fun fs => (hs.map strip).zip (fs.map strip))) := by
  have hsplit : pySplit '\n' (joinLines (joinPadded hs (markerWidths marker) :: marker ::
      fss.map (fun fs => joinPadded fs (markerWidths marker)))) =
      joinPadded hs (markerWidths marker) :: marker ::
        fss.map (fun fs => joinPadded fs (markerWidths marker)) := by
    refine pySplit_joinLines _ (by simp) ?_
    intro l hl
    simp only [List.mem_cons, List.mem_map] at hl
    rcases hl with rfl | rfl | ⟨fs, hfs, rfl⟩
    · exact joinPadded_no_newline hs (markerWidths marker) hnl
    · exact hm
    · exact joinPadded_no_newline fs (markerWidths marker) (hrows fs hfs).2.2
  have hcols : parse_fw_row (joinPadded hs (markerWidths marker)) (markerWidths marker) =
      hs.map strip :=
    parse_fw_row_joinPadded hs (markerWidths marker) hlen hfit
  unfold parse_fw
  rw [hsplit]
  show some ((fss.map (fun fs => joinPadded fs (markerWidths marker))).map
      (fun row => (parse_fw_row (joinPadded hs (markerWidths marker))
        (markerWidths marker)).zip (parse_fw_row row (markerWidths marker)))) = _
  rw [hcols, List.map_map]
  refine congrArg some (List.map_congr_left ?_)
  intro fs hfs
  obtain ⟨h1, h2, _⟩ := hrows fs hfs
  show (hs.map strip).zip (parse_fw_row (joinPadded fs (markerWidths marker))
    (markerWidths marker)) = _
  rw [parse_fw_row_joinPadded fs (markerWidths marker) h1 h2]

/-- Witness for C5: a concrete two-column table with two data rows
round-trips. -/
theorem parse_fw_roundTrip_witness :
    parse_fw (joinLines (joinPadded [toL "JobID", toL "St"]
        (markerWidths (toL "----- ---")) :: toL "----- ---" ::
        [[toL "77", toL "COMP"], [toL "8", toL "R"]].map
          (fun fs => joinPadded fs (markerWidths (toL "----- ---"))))) =
      some ([[toL "77", toL "COMP"], [toL "8", toL "R"]].map
        (fun fs => ([toL "JobID", toL "St"].map strip).zip (fs.map strip))) :=
  parse_fw_roundTrip (toL "----- ---") [toL "JobID", toL "St"]
    [[toL "77", toL "COMP"], [toL "8", toL "R"]]
    (by decide) (by decide) (by decide) (by decide) (by decide)

end Alcyone
